import Mathlib

/-!
Verification of the Session & Streaming Coordination subsystem of the
claude-discord-bot repository, as a shallow embedding in Lean 4.

Strings manipulated character-by-character (the message splitter) are
embedded as `List Char`; opaque identifiers (channel ids, session handles,
tool names) stay `String`.  Wall-clock times are `Nat` parameters.  The
JavaScript event loop is cooperative and single-threaded, so stateful
methods become pure state-passing functions, and the points at which other
tasks can observe shared state are the `await` suspension points.
-/

/-! ## Message splitter (src/streaming/message-splitter.ts)

JavaScript string primitives used by `splitMessage` / `findSplitPoint`,
embedded on `List Char`.  `String.prototype.lastIndexOf(needle, from)`
returns the greatest start index `≤ from` of an occurrence of `needle`,
or `-1`; `trimStart` / `trimEnd` strip leading / trailing whitespace. -/

def isWs (c : Char) : Bool := c.isWhitespace

def trimStart (s : List Char) : List Char := s.dropWhile isWs

def trimEnd (s : List Char) : List Char := (s.reverse.dropWhile isWs).reverse

/-- Greatest index `i ≤ fromIdx` with `needle` occurring in `hay` at `i`. -/
def lastIndexOfFrom (hay needle : List Char) : Nat → Option Nat
  | 0 => if needle.isPrefixOf hay then some 0 else none
  | i + 1 =>
    if needle.isPrefixOf (hay.drop (i + 1)) then some (i + 1)
    else lastIndexOfFrom hay needle i

/-- JS `hay.lastIndexOf(needle, fromIdx)` : `-1` when there is no occurrence. -/
def lastIndexOfInt (hay needle : List Char) (fromIdx : Nat) : Int :=
  match lastIndexOfFrom hay needle fromIdx with
  | some i => (i : Int)
  | none => -1

/-- The sentence-ending two-character sequences tried by `findSplitPoint`. -/
def sentenceEnders : List (List Char) :=
  [['.', ' '], ['!', ' '], ['?', ' '], ['.', '\n'], ['!', '\n'], ['?', '\n']]

/-- Fold from `message-splitter.ts` lines 43-51: the largest ender index, `-1` if none. -/
def bestSentenceEnd (text : List Char) (maxLength : Nat) : Int :=
  sentenceEnders.foldl
    (fun best ender =>
      let index := lastIndexOfInt text ender maxLength
      if best < index then index else best)
    (-1)

/-- `findSplitPoint` (message-splitter.ts lines 29-65).  The float comparisons
`x > maxLength * 0.5` and `x > maxLength * 0.3` are embedded as the exact
rational comparisons `2 * x > maxLength` and `10 * x > 3 * maxLength`. -/
def findSplitPoint (text : List Char) (maxLength : Nat) : Nat :=
  let doubleNewline := lastIndexOfInt text ['\n', '\n'] maxLength
  if 2 * doubleNewline > (maxLength : Int) then (doubleNewline + 2).toNat
  else
    let newline := lastIndexOfInt text ['\n'] maxLength
    if 2 * newline > (maxLength : Int) then (newline + 1).toNat
    else
      let sentenceEnd := bestSentenceEnd text maxLength
      if 10 * sentenceEnd > 3 * (maxLength : Int) then (sentenceEnd + 2).toNat
      else
        let space := lastIndexOfInt text [' '] maxLength
        if 10 * space > 3 * (maxLength : Int) then (space + 1).toNat
        else maxLength

/-- The `while (remaining.length > 0)` loop of `splitMessage`, with fuel.
Each iteration pushes the head slice with trailing whitespace trimmed and
continues on the tail slice with leading whitespace trimmed. -/
def splitMessageGo (maxLength : Nat) : Nat → List Char → List (List Char)
  | 0, _ => []
  | fuel + 1, remaining =>
    if remaining.length = 0 then []
    else if remaining.length ≤ maxLength then [remaining]
    else
      let splitIndex := findSplitPoint remaining maxLength
      trimEnd (remaining.take splitIndex) ::
        splitMessageGo maxLength fuel (trimStart (remaining.drop splitIndex))

/-- `splitMessage` (message-splitter.ts lines 5-27).  `content.length + 1`
fuel always suffices: each iteration strictly shrinks `remaining`. -/
def splitMessage (content : List Char) (maxLength : Nat) : List (List Char) :=
  if content.length ≤ maxLength then [content]
  else splitMessageGo maxLength (content.length + 1) content

/-- Non-whitespace characters of a string, in order. -/
def filterVisible (s : List Char) : List Char := s.filter (fun c => !(isWs c))

/-! ## Session persistence (SessionPersistence, part_003)

The persisted store maps channel ids to records
`{sdkSessionId, lastActivity, messageHistory?}`.  `messageHistory` is an
optional field in the TypeScript interface, hence `Option (List String)`.
`save`/`load` are file I/O and do not change the in-memory data, so they
are omitted; times are passed in as `now`. -/

structure SessionData where
  sdkSessionId : String
  lastActivity : Nat
  messageHistory : Option (List String)
  deriving DecidableEq, Repr

structure SessionStore where
  channels : String → Option SessionData

/-- JS `x || []` on an optional array (an empty array is truthy and equals `[]`). -/
def jsOr (o : Option (List String)) : List String := o.getD []

/-- JS truthiness of an optional string: `null`, `undefined` and `""` are falsy. -/
def jsTruthy (o : Option String) : Option String :=
  o.bind (fun s => if s = "" then none else some s)

/-- `getSessionId` (part_003 lines 50-52): `channels[id]?.sdkSessionId || null`. -/
def SessionPersistence.getSessionId (st : SessionStore) (channelId : String) : Option String :=
  jsTruthy ((st.channels channelId).map SessionData.sdkSessionId)

/-- `setSessionId` (part_003 lines 54-61): replaces the record for the channel
with the new handle, the current time, and `existing?.messageHistory || []`. -/
def SessionPersistence.setSessionId (st : SessionStore) (now : Nat)
    (channelId sessionId : String) : SessionStore :=
  let existing := st.channels channelId
  { channels := fun c =>
      if c = channelId then
        some { sdkSessionId := sessionId, lastActivity := now,
               messageHistory := some (jsOr (existing.bind SessionData.messageHistory)) }
      else st.channels c }

/-- `clearSession` (part_003 lines 69-71): `delete this.data.channels[channelId]`. -/
def SessionPersistence.clearSession (st : SessionStore) (channelId : String) : SessionStore :=
  { channels := fun c => if c = channelId then none else st.channels c }

/-- `pushMessageHistory` (part_003 lines 88-95). -/
def SessionPersistence.pushMessageHistory (st : SessionStore)
    (channelId sessionId : String) : SessionStore :=
  match st.channels channelId with
  | none => st
  | some r =>
    { channels := fun c =>
        if c = channelId then
          some { r with messageHistory := some (jsOr r.messageHistory ++ [sessionId]) }
        else st.channels c }

/-- `getMessageHistory` (part_003 lines 97-99): `?.messageHistory || []`. -/
def SessionPersistence.getMessageHistory (st : SessionStore) (channelId : String) : List String :=
  jsOr ((st.channels channelId).bind SessionData.messageHistory)

/-- `getMessageCount` (part_003 lines 119-121). -/
def SessionPersistence.getMessageCount (st : SessionStore) (channelId : String) : Nat :=
  (SessionPersistence.getMessageHistory st channelId).length

/-- `rewindMessageHistory` (part_003 lines 101-117): pops up to `count`
entries off the end of the history stack and returns the new store together
with the new last entry (or `null` for a missing record / empty stack). -/
def SessionPersistence.rewindMessageHistory (st : SessionStore) (channelId : String)
    (count : Nat) : SessionStore × Option String :=
  match st.channels channelId with
  | none => (st, none)
  | some r =>
    let history := jsOr r.messageHistory
    let popped := history.take (history.length - count)
    ({ channels := fun c =>
         if c = channelId then some { r with messageHistory := some popped }
         else st.channels c },
     popped.getLast?)

/-! ## Session manager (SessionManager, part_005)

In-memory sessions plus the persisted store.  `deleteSdkSessionFile`
unlinks the agent's durable session artifact; the model records the ids
whose artifact files were deleted in `deletedSdkFiles`. -/

structure ManagedSession where
  channelId : String
  sdkSessionId : Option String
  isProcessing : Bool
  lastActivity : Nat
  deriving DecidableEq, Repr

structure ManagerState where
  activeSessions : String → Option ManagedSession
  sessionStore : SessionStore
  deletedSdkFiles : List String

structure RewindResult where
  success : Bool
  rewoundTo : Option String
  messagesRemoved : Nat
  deriving DecidableEq, Repr

/-- `rewindSession` (part_005 lines 188-220).  Guarded on a truthy
`session?.sdkSessionId`; pops the history stack, then either adopts the
new top as the active handle or clears the session; never touches the
durable SDK artifact files. -/
def SessionManager.rewindSession (st : ManagerState) (now : Nat) (channelId : String)
    (count : Nat) : ManagerState × RewindResult :=
  match jsTruthy ((st.activeSessions channelId).bind ManagedSession.sdkSessionId) with
  | none => (st, { success := false, rewoundTo := none, messagesRemoved := 0 })
  | some _ =>
    let beforeCount := SessionPersistence.getMessageCount st.sessionStore channelId
    let rewound := SessionPersistence.rewindMessageHistory st.sessionStore channelId count
    let afterCount := SessionPersistence.getMessageCount rewound.1 channelId
    let removed := beforeCount - afterCount
    match jsTruthy rewound.2 with
    | some nid =>
      ({ st with
          activeSessions := fun c =>
            if c = channelId then
              (st.activeSessions c).map (fun s => { s with sdkSessionId := some nid })
            else st.activeSessions c,
          sessionStore := SessionPersistence.setSessionId rewound.1 now channelId nid },
       { success := true, rewoundTo := some nid, messagesRemoved := removed })
    | none =>
      ({ st with
          activeSessions := fun c =>
            if c = channelId then
              (st.activeSessions c).map (fun s => { s with sdkSessionId := none })
            else st.activeSessions c,
          sessionStore := SessionPersistence.clearSession rewound.1 channelId },
       { success := true, rewoundTo := none, messagesRemoved := removed })

/-- `clearSession` (part_005 lines 125-144): unlinks the SDK session file
for a truthy current handle, nulls the in-memory handle, clears the
processing flag, and deletes the persisted record. -/
def SessionManager.clearSession (st : ManagerState) (now : Nat) (channelId : String) :
    ManagerState :=
  let sessionId := jsTruthy ((st.activeSessions channelId).bind ManagedSession.sdkSessionId)
  { activeSessions := fun c =>
      if c = channelId then
        (st.activeSessions c).map
          (fun s => { s with sdkSessionId := none, isProcessing := false, lastActivity := now })
      else st.activeSessions c,
    sessionStore := SessionPersistence.clearSession st.sessionStore channelId,
    deletedSdkFiles :=
      match sessionId with
      | some sid => st.deletedSdkFiles ++ [sid]
      | none => st.deletedSdkFiles }

/-! ## Message handler (MessageHandler.handleMessage, message-handler.ts lines 33-127)

`handleMessage` is a straight-line async procedure; between two `await`
suspension points no other task on the event loop can run, so the value of
the per-conversation `isProcessing` flag is observable exactly at the
suspension points.  `handlerTrace` records the flag at each suspension
point the control path reaches, threading the flag like the code does:
it is checked after `getOrCreateSession`, set just before cleaning the
content, cleared inline on empty content, and cleared in the inner
`finally` after the query in every outcome. -/

inductive QueryOutcome
  | success
  | abortError
  | otherError
  deriving DecidableEq

inductive HandlerStep
  | returnNotRespond
  | returnDuplicate
  | gettingSession
  | reactHourglass
  | returnEmptyContent
  | processImagesAwait
  | sendTypingAwait
  | queryAwait
  | finalizeAwait
  | logAbort
  | sendErrorAwait
  | afterInnerFinally
  | afterOuterFinally
  deriving DecidableEq

/-- Trace of `(suspension point, isProcessing flag at that point)` pairs for
one call to `handleMessage`, by control path.  `alreadyProcessing` is the
flag value on entry (true when another invocation of this conversation is
in flight). -/
def handlerTrace (alreadyProcessing shouldRespondB isDup emptyContent : Bool)
    (o : QueryOutcome) : List (HandlerStep × Bool) :=
  if !shouldRespondB then [(.returnNotRespond, alreadyProcessing)]
  else if isDup then [(.returnDuplicate, alreadyProcessing)]
  else if alreadyProcessing then
    [(.gettingSession, true), (.reactHourglass, true), (.afterOuterFinally, true)]
  else if emptyContent then
    [(.gettingSession, false), (.returnEmptyContent, false), (.afterOuterFinally, false)]
  else
    [(.gettingSession, false), (.processImagesAwait, true), (.sendTypingAwait, true),
     (.queryAwait, true)] ++
    (match o with
     | .success => [(.finalizeAwait, true)]
     | .abortError => [(.logAbort, true)]
     | .otherError => [(.sendErrorAwait, true)]) ++
    [(.afterInnerFinally, false), (.afterOuterFinally, false)]

/-- The suspension points lying between `session.isProcessing = true` and the
inner `finally` that clears it: the invocation window of the claim. -/
def inInvocationWindow : HandlerStep → Bool
  | .processImagesAwait => true
  | .sendTypingAwait => true
  | .queryAwait => true
  | .finalizeAwait => true
  | .logAbort => true
  | .sendErrorAwait => true
  | .reactHourglass => true
  | _ => false

/-! ## Approval gate (PermissionHook, part_006 lines 238-404)

One approval request is registered with `inRegistry = true` (the
`pendingApprovals` map entry) and `timerPending = true` (its `setTimeout`
timer).  The promise is single-assignment: `result` keeps its first value.
`edits` records the embed updates issued to the published Discord message.
The timeout callback can only run while the timer is pending (a cleared
timer never fires); the stored `resolve` wrapper clears the timer, deletes
the registry entry, edits the message and resolves the promise.  Button and
reaction decisions look the request up in the registry and are no-ops when
the entry is gone. -/

inductive ApprovalEdit
  | decided (approved : Bool)
  | timedOut
  | cancelled
  deriving DecidableEq, Repr

structure ApprovalState where
  inRegistry : Bool
  timerPending : Bool
  result : Option Bool
  edits : List ApprovalEdit
  deriving DecidableEq, Repr

/-- JS promise resolution: the first resolved value sticks. -/
def promiseResolve (r : Option Bool) (b : Bool) : Option Bool :=
  match r with
  | some x => some x
  | none => some b

/-- The `resolve` wrapper stored in the registry entry (part_006 lines 310-324). -/
def pendingResolve (st : ApprovalState) (approved : Bool) : ApprovalState :=
  { st with
      timerPending := false
      inRegistry := false
      edits := st.edits ++ [.decided approved]
      result := promiseResolve st.result approved }

/-- The timeout callback (part_006 lines 289-302); it only runs while its
timer is pending. -/
def timeoutFire (st : ApprovalState) : ApprovalState :=
  if st.timerPending then
    { st with
        timerPending := false
        inRegistry := false
        edits := st.edits ++ [.timedOut]
        result := promiseResolve st.result false }
  else st

inductive ReactionEmoji
  | check
  | cross
  | other
  deriving DecidableEq

inductive ApprovalEvent
  | button (approve : Bool)
  | reaction (emoji : ReactionEmoji)
  | timerExpiry
  deriving DecidableEq

/-- One event against one approval request: `handleButtonInteraction`
(part_006 lines 336-359), `handleReaction` (lines 361-373), or the timeout
timer firing. -/
def approvalStep (st : ApprovalState) (ev : ApprovalEvent) : ApprovalState :=
  match ev with
  | .button a => if st.inRegistry then pendingResolve st a else st
  | .reaction e =>
    if st.inRegistry then
      match e with
      | .check => pendingResolve st true
      | .cross => pendingResolve st false
      | .other => st
    else st
  | .timerExpiry => timeoutFire st

/-- State of a request right after `requestApproval` registered it. -/
def initialApproval : ApprovalState :=
  { inRegistry := true, timerPending := true, result := none, edits := [] }

def runApproval (evs : List ApprovalEvent) : ApprovalState :=
  evs.foldl approvalStep initialApproval

/-- The boolean decision an event carries for this request, if any. -/
def eventDecision : ApprovalEvent → Option Bool
  | .button a => some a
  | .reaction .check => some true
  | .reaction .cross => some false
  | .reaction .other => none
  | .timerExpiry => some false

/-- Decision of the first decisive event in the sequence. -/
def firstDecision : List ApprovalEvent → Option Bool
  | [] => none
  | ev :: rest =>
    match eventDecision ev with
    | some b => some b
    | none => firstDecision rest

/-! ### requestApproval action order (part_006 lines 238-334)

The body of `requestApproval` is straight-line up to returning the
promise: format the tool input, build the embed and button row, `await
channel.send`, then synchronously inside the promise executor start the
timeout timer and set the `pendingApprovals` registry entry, and only then
attach the two fallback reactions (fire-and-forget).  The order of these
effects is the action list below. -/

inductive RequestApprovalAction
  | formatToolInput
  | buildEmbed
  | buildButtonRow
  | sendApprovalMessage
  | startTimeoutTimer
  | registrySet
  | attachApproveReaction
  | attachDenyReaction
  deriving DecidableEq, Repr

def requestApprovalActions : List RequestApprovalAction :=
  [.formatToolInput, .buildEmbed, .buildButtonRow, .sendApprovalMessage,
   .startTimeoutTimer, .registrySet, .attachApproveReaction, .attachDenyReaction]

/-! ### Bulk cancellation (cancelPendingApprovals, part_006 lines 375-404)

Registry records across requests.  For each registry entry of the target
conversation the loop clears the timer, deletes the entry, starts a
fetch-then-edit of the Discord message to the "Cancelled" embed (only when
the channel still resolves), and calls the stored `resolve(false)` — which
synchronously issues the "Denied" decision edit and resolves the promise.
The fetch round-trip completes after the synchronous loop, so the
cancellation embed is the last edit issued on the message; `lastEdit`
records it. -/

structure PendingRecord where
  toolUseId : String
  channelId : String
  messageId : String
  timerPending : Bool
  inRegistry : Bool
  result : Option Bool
  lastEdit : Option ApprovalEdit
  deriving DecidableEq, Repr

/-- Effect of `cancelPendingApprovals` on one registry record of the target
conversation (`channelFound` is whether `getChannel` resolves it). -/
def cancelOne (channelFound : Bool) (r : PendingRecord) : PendingRecord :=
  if r.inRegistry then
    { r with
        timerPending := false
        inRegistry := false
        result := promiseResolve r.result false
        lastEdit := if channelFound then some .cancelled else some (.decided false) }
  else r

/-- `cancelPendingApprovals(channelId)` over the whole request table. -/
def cancelPendingApprovals (getChannel : String → Bool) (rs : List PendingRecord)
    (channelId : String) : List PendingRecord :=
  rs.map (fun r => if r.channelId = channelId then cancelOne (getChannel channelId) r else r)

/-! ## Permission hook handler (createHookHandler, part_006 lines 168-236)

The handler's observable outcome as a function of the configuration and
the environment: whether the tool is in the dangerous set, whether
`getChannel` resolves the conversation's channel, whether `channel.send`
succeeds, and the human decision `requestApproval` would produce.
A rejected `channel.send` is not caught anywhere in the hook, so it
escapes the handler as an exception (`sendFailure`) instead of producing
a decision object. -/

structure HookOutput where
  continueRun : Bool
  permissionDecision : String
  permissionDecisionReason : Option String
  deriving DecidableEq, Repr

inductive HookResult
  | decisionMade (out : HookOutput)
  | sendFailure
  deriving DecidableEq, Repr

/-- The hook handler returned by `createHookHandler`, paired with whether a
UI element was published for the request. -/
def createHookHandler (dangerousTools : List String) (channelFound sendOk approved : Bool)
    (toolName : String) : HookResult × Bool :=
  if toolName ∉ dangerousTools then
    (.decisionMade
      { continueRun := true
        permissionDecision := "allow"
        permissionDecisionReason := none }, false)
  else if !channelFound then
    (.decisionMade
      { continueRun := false
        permissionDecision := "deny"
        permissionDecisionReason := some ("Cannot request permission: channel not found") },
     false)
  else if !sendOk then
    (.sendFailure, false)
  else if approved then
    (.decisionMade
      { continueRun := true
        permissionDecision := "allow"
        permissionDecisionReason := none }, true)
  else
    (.decisionMade
      { continueRun := false
        permissionDecision := "deny"
        permissionDecisionReason := some ("User denied permission for this operation") }, true)

/-! ## Streaming coordinator (ChunkedUpdater, part_008 lines 4-198)

`flushUpdate` embedded as a state transition.  The transport interaction
is abstracted by a `FlushOutcome`: the reply/edit succeeded, failed with a
rate-limit signal, or failed otherwise.  The second component of the
result is the backoff duration slept inside the rate-limit branch, if
any. -/

inductive FlushOutcome
  | flushSuccess
  | rateLimited
  | otherError
  deriving DecidableEq, Repr

structure UpdaterState where
  contentBuffer : String
  hasCurrentMessage : Bool
  lastUpdateTime : Nat
  timerScheduled : Bool
  isEditing : Bool
  pendingUpdate : Bool
  rateLimitBackoffMs : Nat
  consecutiveRateLimits : Nat
  deriving DecidableEq, Repr

/-- `scheduleUpdate` (part_008 lines 42-54): suppressed when a timer already exists. -/
def scheduleUpdate (st : UpdaterState) : UpdaterState :=
  if st.timerScheduled then st else { st with timerScheduled := true }

/-- `flushUpdate` (part_008 lines 56-112). -/
def flushUpdate (st : UpdaterState) (now : Nat) (outcome : FlushOutcome) :
    UpdaterState × Option Nat :=
  if st.contentBuffer = "" ∨ st.isEditing then ({ st with pendingUpdate := true }, none)
  else
    let st1 := { st with isEditing := true, pendingUpdate := false }
    let sr : UpdaterState × Option Nat :=
      match outcome with
      | .flushSuccess =>
        ({ st1 with
             hasCurrentMessage := true
             lastUpdateTime := now
             consecutiveRateLimits := 0 }, none)
      | .rateLimited =>
        let n := st1.consecutiveRateLimits + 1
        ({ st1 with consecutiveRateLimits := n, pendingUpdate := true },
         some (st1.rateLimitBackoffMs * 2 ^ (n - 1)))
      | .otherError => (st1, none)
    let st3 := { sr.1 with isEditing := false }
    let st4 := if st3.pendingUpdate && !(st3.contentBuffer == "") then scheduleUpdate st3 else st3
    (st4, sr.2)

/-- Run of `k` consecutive rate-limited flushes, collecting the slept backoffs. -/
def flushRLRun : UpdaterState → Nat → UpdaterState × List Nat
  | st, 0 => (st, [])
  | st, k + 1 =>
    let out := flushUpdate st 0 .rateLimited
    let rest := flushRLRun out.1 k
    (rest.1, out.2.toList ++ rest.2)

/-! ## Theorems -/

/-- C1: for a conversation whose processing flag is initially clear, one call
to `handleMessage` keeps `isProcessing` true at exactly the observable points
between the flag being set (before querying) and the inner `finally` clearing
it, and false at all other observable points; whenever the query runs, the
`finally`-cleared point is reached with the flag false for every outcome
(success, abort, failure); and a call that finds the flag already set never
reaches the query, so no second agent invocation runs concurrently for the
same conversation. -/
theorem processing_flag_lifecycle (shouldRespondB isDup emptyContent : Bool)
    (o : QueryOutcome) :
    (∀ p ∈ handlerTrace false shouldRespondB isDup emptyContent o,
      p.2 = inInvocationWindow p.1) ∧
    ((HandlerStep.queryAwait, true) ∈ handlerTrace false shouldRespondB isDup emptyContent o →
      (HandlerStep.afterInnerFinally, false) ∈
        handlerTrace false shouldRespondB isDup emptyContent o) ∧
    (∀ p ∈ handlerTrace true shouldRespondB isDup emptyContent o,
      p.1 ≠ HandlerStep.queryAwait) := by
  cases shouldRespondB <;> cases isDup <;> cases emptyContent <;> cases o <;> decide

/-- C1 witness: on the success path with the flag initially clear, the query
point is reached with the flag set and the inner `finally` point is reached
with the flag cleared. -/
theorem processing_flag_lifecycle_witness :
    (HandlerStep.queryAwait, true) ∈ handlerTrace false true false false QueryOutcome.success ∧
    (HandlerStep.afterInnerFinally, false) ∈
      handlerTrace false true false false QueryOutcome.success := by
  have h := processing_flag_lifecycle true false false QueryOutcome.success
  exact ⟨by decide, h.2.1 (by decide)⟩

/-- C4: in `requestApproval` the registry entry for the request id is set
after the UI element is published and strictly before either redundant
reaction affordance is attached; consequently a decision event processed
right after registration finds the entry and resolves with its decision. -/
theorem registry_set_before_reactions :
    RequestApprovalAction.registrySet ∈ requestApprovalActions ∧
    RequestApprovalAction.attachApproveReaction ∈ requestApprovalActions ∧
    RequestApprovalAction.attachDenyReaction ∈ requestApprovalActions ∧
    requestApprovalActions.indexOf RequestApprovalAction.sendApprovalMessage <
      requestApprovalActions.indexOf RequestApprovalAction.registrySet ∧
    requestApprovalActions.indexOf RequestApprovalAction.registrySet <
      requestApprovalActions.indexOf RequestApprovalAction.attachApproveReaction ∧
    requestApprovalActions.indexOf RequestApprovalAction.registrySet <
      requestApprovalActions.indexOf RequestApprovalAction.attachDenyReaction ∧
    (∀ a : Bool,
      (approvalStep initialApproval (ApprovalEvent.button a)).result = some a) := by
  refine ⟨by decide, by decide, by decide, by decide, by decide, by decide, ?_⟩
  intro a
  cases a <;> decide

/-- C7 (failing input): on content `"aaaa. a"` with limit 4, the
sentence-boundary branch of `findSplitPoint` returns index 6, and
`splitMessage` produces the chunk `"aaaa."` of length 5 > 4, exceeding the
limit its own documentation promises. -/
theorem splitMessage_chunk_exceeds_limit :
    (splitMessage (['a', 'a', 'a', 'a', '.', ' ', 'a']) 4).map List.length = [5, 1] ∧
    ∃ chunk ∈ splitMessage (['a', 'a', 'a', 'a', '.', ' ', 'a']) 4,
      4 < chunk.length := by
  decide

/-- A resolved request (registry entry deleted, timer cleared) is a fixed
point of every further event: late decisions and a cleared timer have no
effect. -/
theorem approvalStep_resolved_fixed (st : ApprovalState) (ev : ApprovalEvent)
    (hr : st.inRegistry = false) (ht : st.timerPending = false) :
    approvalStep st ev = st := by
  cases ev with
  | button a => simp [approvalStep, hr]
  | reaction e => simp [approvalStep, hr]
  | timerExpiry => simp [approvalStep, timeoutFire, ht]

theorem foldl_approvalStep_resolved (evs : List ApprovalEvent) (st : ApprovalState)
    (hr : st.inRegistry = false) (ht : st.timerPending = false) :
    evs.foldl approvalStep st = st := by
  induction evs with
  | nil => rfl
  | cons ev evs ih =>
    rw [List.foldl_cons, approvalStep_resolved_fixed st ev hr ht]
    exact ih

/-- A decisive event fired against a freshly registered request resolves it:
the promise gets the event's decision, the registry entry is removed, the
timer is cleared, and exactly one UI edit is issued. -/
theorem approvalStep_decisive (ev : ApprovalEvent) (d : Bool)
    (hd : eventDecision ev = some d) :
    ∃ e, approvalStep initialApproval ev =
      { inRegistry := false, timerPending := false, result := some d, edits := [e] } := by
  cases ev with
  | button a =>
    have ha : a = d := by simpa [eventDecision] using hd
    subst ha
    exact ⟨ApprovalEdit.decided a,
      by simp [approvalStep, initialApproval, pendingResolve, promiseResolve]⟩
  | timerExpiry =>
    have hfd : d = false := by simpa [eventDecision] using hd.symm
    subst hfd
    exact ⟨ApprovalEdit.timedOut,
      by simp [approvalStep, initialApproval, timeoutFire, promiseResolve]⟩
  | reaction e =>
    cases e with
    | check =>
      have hfd : d = true := by simpa [eventDecision] using hd.symm
      subst hfd
      exact ⟨ApprovalEdit.decided true,
        by simp [approvalStep, initialApproval, pendingResolve, promiseResolve]⟩
    | cross =>
      have hfd : d = false := by simpa [eventDecision] using hd.symm
      subst hfd
      exact ⟨ApprovalEdit.decided false,
        by simp [approvalStep, initialApproval, pendingResolve, promiseResolve]⟩
    | other => simp [eventDecision] at hd

/-- An indecisive event (a reaction with an unrecognized emoji) leaves a
registered request untouched. -/
theorem approvalStep_indecisive (ev : ApprovalEvent)
    (hd : eventDecision ev = none) :
    approvalStep initialApproval ev = initialApproval := by
  cases ev with
  | button a => simp [eventDecision] at hd
  | timerExpiry => simp [eventDecision] at hd
  | reaction e =>
    cases e with
    | check => simp [eventDecision] at hd
    | cross => simp [eventDecision] at hd
    | other => simp [approvalStep, initialApproval]

/-- C3: from a freshly registered approval request, any sequence of button
decisions, reaction decisions and timer expiries resolves the promise to the
decision of whichever decisive event fires first (and to nothing if none
fires); at most one UI resolution edit is ever issued; and once a decision
exists the registry entry has been removed and the timeout timer cleared, so
every later decision or timeout for the request has no effect. -/
theorem approval_resolves_once (evs : List ApprovalEvent) :
    (runApproval evs).result = firstDecision evs ∧
    (runApproval evs).edits.length ≤ 1 ∧
    (∀ b, firstDecision evs = some b →
      (runApproval evs).inRegistry = false ∧ (runApproval evs).timerPending = false) := by
  induction evs with
  | nil => exact ⟨rfl, by decide, fun b h => by simp [firstDecision] at h⟩
  | cons ev evs ih =>
    cases hd : eventDecision ev with
    | none =>
      have hstep := approvalStep_indecisive ev hd
      have hrun : runApproval (ev :: evs) = runApproval evs := by
        rw [runApproval, List.foldl_cons, hstep]
        rfl
      have hfd : firstDecision (ev :: evs) = firstDecision evs := by
        simp [firstDecision, hd]
      rw [hrun, hfd]
      exact ih
    | some d =>
      obtain ⟨e, he⟩ := approvalStep_decisive ev d hd
      have hrun : runApproval (ev :: evs) =
          { inRegistry := false, timerPending := false, result := some d, edits := [e] } := by
        rw [runApproval, List.foldl_cons, he, foldl_approvalStep_resolved evs _ rfl rfl]
      have hfd : firstDecision (ev :: evs) = some d := by
        simp [firstDecision, hd]
      rw [hrun, hfd]
      exact ⟨rfl, by simp, fun b _ => ⟨rfl, rfl⟩⟩

/-- C3 witness: a button approval followed by a late timer expiry and a late
deny reaction resolves exactly once, to true, with the registry entry gone
and the timer cleared. -/
theorem approval_resolves_once_witness :
    (runApproval [ApprovalEvent.button true, ApprovalEvent.timerExpiry,
        ApprovalEvent.reaction ReactionEmoji.cross]).result = some true ∧
    (runApproval [ApprovalEvent.button true, ApprovalEvent.timerExpiry,
        ApprovalEvent.reaction ReactionEmoji.cross]).inRegistry = false ∧
    (runApproval [ApprovalEvent.button true, ApprovalEvent.timerExpiry,
        ApprovalEvent.reaction ReactionEmoji.cross]).timerPending = false := by
  have h := approval_resolves_once [ApprovalEvent.button true, ApprovalEvent.timerExpiry,
    ApprovalEvent.reaction ReactionEmoji.cross]
  exact ⟨h.1.trans (by decide), (h.2.2 true (by decide)).1, (h.2.2 true (by decide)).2⟩

/-- Fields untouched by `scheduleUpdate`. -/
theorem scheduleUpdate_fields (st : UpdaterState) :
    (scheduleUpdate st).contentBuffer = st.contentBuffer ∧
    (scheduleUpdate st).isEditing = st.isEditing ∧
    (scheduleUpdate st).rateLimitBackoffMs = st.rateLimitBackoffMs ∧
    (scheduleUpdate st).consecutiveRateLimits = st.consecutiveRateLimits ∧
    (scheduleUpdate st).pendingUpdate = st.pendingUpdate ∧
    (scheduleUpdate st).timerScheduled = true := by
  unfold scheduleUpdate
  split <;> simp_all

/-- Shape of a rate-limited flush that actually reached the transport: the
consecutive counter is bumped, the pending flag is set and an update is
rescheduled, and the slept backoff is `base * 2 ^ (counter before the bump)`. -/
theorem flushUpdate_rateLimited (st : UpdaterState) (now : Nat)
    (h1 : st.contentBuffer ≠ "") (h2 : st.isEditing = false) :
    flushUpdate st now .rateLimited =
      (scheduleUpdate
        { st with
            isEditing := false
            pendingUpdate := true
            consecutiveRateLimits := st.consecutiveRateLimits + 1 },
       some (st.rateLimitBackoffMs * 2 ^ st.consecutiveRateLimits)) := by
  unfold flushUpdate
  rw [if_neg (by simp [h1, h2])]
  dsimp only
  rw [if_pos (by simp [h1]), Nat.add_sub_cancel]

/-- Shape of a successful flush that actually reached the transport. -/
theorem flushUpdate_success (st : UpdaterState) (now : Nat)
    (h1 : st.contentBuffer ≠ "") (h2 : st.isEditing = false) :
    flushUpdate st now .flushSuccess =
      ({ st with
          isEditing := false
          pendingUpdate := false
          hasCurrentMessage := true
          lastUpdateTime := now
          consecutiveRateLimits := 0 }, none) := by
  unfold flushUpdate
  rw [if_neg (by simp [h1, h2])]
  dsimp only
  rw [if_neg (by simp only [Bool.false_and]; exact Bool.false_ne_true)]

/-- Backoffs emitted by a run of consecutive rate-limited flushes. -/
theorem flushRLRun_emits (k : Nat) : ∀ st : UpdaterState,
    st.contentBuffer ≠ "" → st.isEditing = false →
    (flushRLRun st k).2 =
      (List.range k).map
        (fun j => st.rateLimitBackoffMs * 2 ^ (st.consecutiveRateLimits + j)) := by
  induction k with
  | zero => intro st _ _; simp [flushRLRun]
  | succ k ih =>
    intro st h1 h2
    have hfields := scheduleUpdate_fields
      { st with
          isEditing := false
          pendingUpdate := true
          consecutiveRateLimits := st.consecutiveRateLimits + 1 }
    rw [flushRLRun, flushUpdate_rateLimited st 0 h1 h2]
    have hrest := ih (scheduleUpdate
        { st with
            isEditing := false
            pendingUpdate := true
            consecutiveRateLimits := st.consecutiveRateLimits + 1 })
      (by rw [hfields.1]; exact h1) hfields.2.1
    rw [hrest, hfields.2.2.1, hfields.2.2.2.1]
    simp only [List.range_succ_eq_map, List.map_cons, List.map_map, Option.toList_some,
      List.singleton_append, Nat.add_zero]
    congr 1
    apply List.map_congr_left
    intro j _
    simp only [Function.comp_apply]
    congr 2
    omega

/-- C6: a flush that hits a transport rate limit while holding buffered
content sleeps `base * 2^(n-1)` for the n-th consecutive rate limit, so a
run of consecutive rate limits produces strictly increasing backoff delays;
one successful flush resets the consecutive counter to zero so the next
backoff is the base delay again; and the rate-limited update is not dropped:
the pending flag is set and a retry flush is scheduled. -/
theorem backoff_monotone_reset (st : UpdaterState) (now now2 : Nat) (k : Nat)
    (h1 : st.contentBuffer ≠ "") (h2 : st.isEditing = false)
    (h3 : 0 < st.rateLimitBackoffMs) :
    (flushUpdate st now .rateLimited).2 =
      some (st.rateLimitBackoffMs * 2 ^ st.consecutiveRateLimits) ∧
    (flushRLRun st k).2 =
      (List.range k).map
        (fun j => st.rateLimitBackoffMs * 2 ^ (st.consecutiveRateLimits + j)) ∧
    List.Chain' (· < ·) (flushRLRun st k).2 ∧
    (flushUpdate st now .flushSuccess).1.consecutiveRateLimits = 0 ∧
    (flushUpdate (flushUpdate st now .flushSuccess).1 now2 .rateLimited).2 =
      some st.rateLimitBackoffMs ∧
    (flushUpdate st now .rateLimited).1.pendingUpdate = true ∧
    (flushUpdate st now .rateLimited).1.timerScheduled = true := by
  have hemit := flushRLRun_emits k st h1 h2
  have hmono : List.Chain' (· < ·) (flushRLRun st k).2 := by
    rw [hemit]
    refine List.Pairwise.chain' (List.Pairwise.map _ ?_ (List.pairwise_lt_range k))
    intro i j hij
    exact mul_lt_mul_of_pos_left (Nat.pow_lt_pow_right (by omega) (by omega)) h3
  have hrl := flushUpdate_rateLimited st now h1 h2
  have hsc := flushUpdate_success st now h1 h2
  have hfields := scheduleUpdate_fields
    { st with
        isEditing := false
        pendingUpdate := true
        consecutiveRateLimits := st.consecutiveRateLimits + 1 }
  refine ⟨by rw [hrl], hemit, hmono, by rw [hsc], ?_, ?_, ?_⟩
  · rw [hsc]
    rw [flushUpdate_rateLimited _ now2 (by simpa using h1) (by simp)]
    simp
  · rw [hrl]
    exact hfields.2.2.2.2.1
  · rw [hrl]
    exact hfields.2.2.2.2.2

/-- C6 witness: from a fresh updater state with buffered content (base delay
1000 ms), four consecutive rate limits sleep 1000, 2000, 4000, 8000 ms. -/
theorem backoff_monotone_reset_witness :
    (flushRLRun
      { contentBuffer := "hi", hasCurrentMessage := false, lastUpdateTime := 0,
        timerScheduled := false, isEditing := false, pendingUpdate := false,
        rateLimitBackoffMs := 1000, consecutiveRateLimits := 0 } 4).2 =
      (List.range 4).map (fun j => 1000 * 2 ^ (0 + j)) ∧
    List.Chain' (· < ·)
      (flushRLRun
        { contentBuffer := "hi", hasCurrentMessage := false, lastUpdateTime := 0,
          timerScheduled := false, isEditing := false, pendingUpdate := false,
          rateLimitBackoffMs := 1000, consecutiveRateLimits := 0 } 4).2 := by
  have h := backoff_monotone_reset
    { contentBuffer := "hi", hasCurrentMessage := false, lastUpdateTime := 0,
      timerScheduled := false, isEditing := false, pendingUpdate := false,
      rateLimitBackoffMs := 1000, consecutiveRateLimits := 0 } 0 0 4
    (by decide) rfl (by decide)
  exact ⟨h.2.1, h.2.2.1⟩

/-- C9 counterexample: with `Bash` configured dangerous, the channel
resolvable, and the `channel.send` publish itself failing, the hook does not
return the immediate deny decision the claim predicts — the rejection
escapes the handler as an uncaught exception and no decision object is
produced at all. -/
theorem hook_send_failure_not_denied :
    (createHookHandler ["Bash"] true false true "Bash").1 = HookResult.sendFailure ∧
    (createHookHandler ["Bash"] true false true "Bash").1 ≠
      HookResult.decisionMade
        { continueRun := false
          permissionDecision := "deny"
          permissionDecisionReason := some ("Cannot request permission: channel not found") } := by
  exact ⟨by decide, by decide⟩

/-- C9 (amended): every tool outside the configured dangerous-tool set is
auto-approved (allow/continue) without publishing a UI element; if the
target channel cannot be resolved the hook returns an immediate deny with
the distinct reason `Cannot request permission: channel not found` (again
publishing nothing); but a failure of the UI publish call itself is not
converted into a deny — it escapes the hook as an exception, with no UI
element published and no registry entry created. -/
theorem hook_policy (dangerousTools : List String) (toolName : String)
    (channelFound sendOk approved : Bool) :
    (toolName ∉ dangerousTools →
      createHookHandler dangerousTools channelFound sendOk approved toolName =
        (HookResult.decisionMade
          { continueRun := true
            permissionDecision := "allow"
            permissionDecisionReason := none }, false)) ∧
    (toolName ∈ dangerousTools → channelFound = false →
      createHookHandler dangerousTools channelFound sendOk approved toolName =
        (HookResult.decisionMade
          { continueRun := false
            permissionDecision := "deny"
            permissionDecisionReason :=
              some ("Cannot request permission: channel not found") }, false)) ∧
    (toolName ∈ dangerousTools → channelFound = true → sendOk = false →
      createHookHandler dangerousTools channelFound sendOk approved toolName =
        (HookResult.sendFailure, false)) := by
  refine ⟨fun hnd => ?_, fun hd hcf => ?_, fun hd hcf hsf => ?_⟩
  · simp [createHookHandler, hnd]
  · simp [createHookHandler, hd, hcf]
  · simp [createHookHandler, hd, hcf, hsf]

/-- C9 witness: the three amended branches at concrete inputs — `Read` is
auto-approved without UI, `Bash` with an unresolvable channel is denied with
the distinct reason, and `Bash` with a failing publish escapes as an
exception. -/
theorem hook_policy_witness :
    createHookHandler ["Bash"] true true true "Read" =
      (HookResult.decisionMade
        { continueRun := true
          permissionDecision := "allow"
          permissionDecisionReason := none }, false) ∧
    createHookHandler ["Bash"] false true true "Bash" =
      (HookResult.decisionMade
        { continueRun := false
          permissionDecision := "deny"
          permissionDecisionReason :=
            some ("Cannot request permission: channel not found") }, false) ∧
    createHookHandler ["Bash"] true false true "Bash" =
      (HookResult.sendFailure, false) := by
  refine ⟨(hook_policy ["Bash"] "Read" true true true).1 (by decide),
    (hook_policy ["Bash"] "Bash" false true true).2.1 (by decide) rfl,
    (hook_policy ["Bash"] "Bash" true false true).2.2 (by decide) rfl rfl⟩

/-- C10: for a channel that already has a persisted record,
`SessionPersistence.setSessionId` replaces the session handle with the new
one and stamps the current time, the channel's rewind stack is carried over
unchanged, and the records of all other channels are untouched. -/
theorem setSessionId_frame (st : SessionStore) (now : Nat)
    (channelId sessionId : String) (r : SessionData)
    (hrec : st.channels channelId = some r) :
    (SessionPersistence.setSessionId st now channelId sessionId).channels channelId =
      some { sdkSessionId := sessionId, lastActivity := now,
             messageHistory := some (jsOr r.messageHistory) } ∧
    SessionPersistence.getMessageHistory
        (SessionPersistence.setSessionId st now channelId sessionId) channelId =
      SessionPersistence.getMessageHistory st channelId ∧
    (∀ c, c ≠ channelId →
      (SessionPersistence.setSessionId st now channelId sessionId).channels c =
        st.channels c) := by
  refine ⟨?_, ?_, fun c hc => ?_⟩
  · simp [SessionPersistence.setSessionId, hrec]
  · simp [SessionPersistence.getMessageHistory, SessionPersistence.setSessionId, hrec, jsOr]
  · simp [SessionPersistence.setSessionId, hc]

/-- A persisted store holding one channel `c1` with handle `h3` and rewind
stack `[h1, h2, h3]`. -/
def storeOneChannel : SessionStore :=
  { channels := fun c =>
      if c = "c1" then
        some { sdkSessionId := "h3", lastActivity := 0,
               messageHistory := some ["h1", "h2", "h3"] }
      else none }

/-- C10 witness: replacing `c1`'s handle by `s9` at time 5 keeps the stack
`[h1, h2, h3]` and the record of channel `c2` untouched. -/
theorem setSessionId_frame_witness :
    (SessionPersistence.setSessionId storeOneChannel 5 "c1" "s9").channels "c1" =
      some { sdkSessionId := "s9", lastActivity := 5,
             messageHistory := some (jsOr (some ["h1", "h2", "h3"])) } ∧
    SessionPersistence.getMessageHistory
        (SessionPersistence.setSessionId storeOneChannel 5 "c1" "s9") "c1" =
      SessionPersistence.getMessageHistory storeOneChannel "c1" ∧
    (SessionPersistence.setSessionId storeOneChannel 5 "c1" "s9").channels "c2" =
      storeOneChannel.channels "c2" := by
  have h := setSessionId_frame storeOneChannel 5 "c1" "s9"
    { sdkSessionId := "h3", lastActivity := 0, messageHistory := some ["h1", "h2", "h3"] }
    (by decide)
  exact ⟨h.1, h.2.1, h.2.2 "c2" (by decide)⟩

/-- C5: `cancelPendingApprovals(channelId)` resolves every live request of
that conversation to false, clears its timer, removes it from the registry,
and leaves its UI element showing the cancellation embed (issued after the
resolution's denial embed); records of other conversations are untouched,
and afterwards the registry holds no entry for the conversation. -/
theorem cancel_pending_bulk (getChannel : String → Bool) (rs : List PendingRecord)
    (channelId : String) (hgc : getChannel channelId = true) :
    List.Forall₂ (fun r r2 =>
        (r.channelId = channelId → r.inRegistry = true → r.result = none →
          r2.result = some false ∧ r2.inRegistry = false ∧ r2.timerPending = false ∧
          r2.lastEdit = some ApprovalEdit.cancelled) ∧
        (r.channelId ≠ channelId → r2 = r))
      rs (cancelPendingApprovals getChannel rs channelId) ∧
    (∀ r2 ∈ cancelPendingApprovals getChannel rs channelId,
      r2.channelId = channelId → r2.inRegistry = false) := by
  constructor
  · induction rs with
    | nil => exact List.Forall₂.nil
    | cons r rs ih =>
      refine List.Forall₂.cons ⟨fun hch hreg hres => ?_, fun hch => ?_⟩ ih
      · simp [cancelOne, hch, hgc, hreg, hres, promiseResolve]
      · simp [hch]
  · intro r2 hmem hch
    rw [cancelPendingApprovals, List.mem_map] at hmem
    obtain ⟨r, hr, hmap⟩ := hmem
    by_cases hrc : r.channelId = channelId
    · rw [if_pos hrc] at hmap
      rw [← hmap]
      unfold cancelOne
      split <;> simp_all
    · rw [if_neg hrc] at hmap
      rw [← hmap] at hch
      exact absurd hch hrc

/-- Request table with two live approvals for conversation `c1` and one live
approval for conversation `c2`. -/
def pendingFixture : List PendingRecord :=
  [{ toolUseId := "t1", channelId := "c1", messageId := "m1", timerPending := true,
     inRegistry := true, result := none, lastEdit := none },
   { toolUseId := "t2", channelId := "c1", messageId := "m2", timerPending := true,
     inRegistry := true, result := none, lastEdit := none },
   { toolUseId := "t3", channelId := "c2", messageId := "m3", timerPending := true,
     inRegistry := true, result := none, lastEdit := none }]

/-- Channel resolver that finds every channel. -/
def allChannelsResolve : String → Bool := fun _ => true

/-- C5 witness: cancelling `c1` with two live requests pending and one live
request of `c2` in the table resolves both `c1` requests to false with
cleared timers and cancellation embeds, leaves zero `c1` registry entries,
and leaves the `c2` request untouched. -/
theorem cancel_pending_bulk_witness :
    allChannelsResolve "c1" = true ∧
    (cancelPendingApprovals allChannelsResolve pendingFixture "c1").map
        (fun r2 => (r2.result, r2.inRegistry, r2.timerPending, r2.lastEdit)) =
      [(some false, false, false, some ApprovalEdit.cancelled),
       (some false, false, false, some ApprovalEdit.cancelled),
       (none, true, true, none)] := by
  have h := cancel_pending_bulk allChannelsResolve pendingFixture "c1" rfl
  exact ⟨rfl, by decide⟩

/-- C2: for a conversation with an active non-empty session handle and a
rewind stack holding no empty handle, `rewindSession(channelId, count)` pops
`min count stack.length` entries (stopping early when the stack is
exhausted), reports exactly that number removed with success; the surviving
stack is the prefix left after popping; the reported handle and the active
in-memory handle both become the new top of the stack when entries remain
and null when it emptied; and no durable SDK session artifact is deleted. -/
theorem rewindSession_pops (st : ManagerState) (now : Nat) (channelId : String)
    (count : Nat) (s : ManagedSession) (sid : String) (stack : List String)
    (hs : st.activeSessions channelId = some s)
    (hsid : s.sdkSessionId = some sid)
    (hne : sid ≠ "")
    (hstack : SessionPersistence.getMessageHistory st.sessionStore channelId = stack)
    (hclean : ("" : String) ∉ stack) :
    (SessionManager.rewindSession st now channelId count).2.success = true ∧
    (SessionManager.rewindSession st now channelId count).2.messagesRemoved =
      min count stack.length ∧
    SessionPersistence.getMessageHistory
        (SessionManager.rewindSession st now channelId count).1.sessionStore channelId =
      stack.take (stack.length - count) ∧
    (SessionManager.rewindSession st now channelId count).2.rewoundTo =
      (stack.take (stack.length - count)).getLast? ∧
    ((SessionManager.rewindSession st now channelId count).1.activeSessions channelId).bind
        ManagedSession.sdkSessionId =
      (stack.take (stack.length - count)).getLast? ∧
    (SessionManager.rewindSession st now channelId count).1.deletedSdkFiles =
      st.deletedSdkFiles := by
  have hguard : jsTruthy ((st.activeSessions channelId).bind ManagedSession.sdkSessionId) =
      some sid := by
    rw [hs]
    simp [jsTruthy, hsid, hne]
  rcases hchan : st.sessionStore.channels channelId with _ | r
  · -- no persisted record: empty stack, rewind behaves like clear
    have hstk : stack = [] := by
      rw [← hstack]
      simp [SessionPersistence.getMessageHistory, hchan, jsOr]
    subst hstk
    simp only [SessionManager.rewindSession, hguard]
    simp only [SessionPersistence.rewindMessageHistory, hchan]
    simp [SessionPersistence.getMessageHistory, SessionPersistence.getMessageCount,
      SessionPersistence.clearSession, jsTruthy, jsOr, hs, hchan]
  · -- persisted record present
    have hist : jsOr r.messageHistory = stack := by
      rw [← hstack]
      simp [SessionPersistence.getMessageHistory, hchan]
    rcases hlast : (stack.take (stack.length - count)).getLast? with _ | nid
    · -- stack exhausted: clear branch
      have hpop : stack.take (stack.length - count) = [] :=
        List.getLast?_eq_none_iff.mp hlast
      simp only [SessionManager.rewindSession, hguard]
      simp only [SessionPersistence.rewindMessageHistory, hchan, hist, hpop, hlast]
      have hlen : stack.length ≤ count := by
        have := congrArg List.length hpop
        simp [List.length_take] at this
        omega
      simp [SessionPersistence.getMessageHistory, SessionPersistence.getMessageCount,
        SessionPersistence.clearSession, jsTruthy, jsOr, hs, hchan, hpop]
      have hgl : r.messageHistory.getD [] = stack := by
        have h2 := hist
        simp only [jsOr] at h2
        exact h2
      rw [hgl]
      omega
    · -- entries remain: new top becomes the active handle
      have hmem : nid ∈ stack :=
        List.mem_of_mem_take (List.mem_of_getLast?_eq_some hlast)
      have hnid : nid ≠ "" := fun he => hclean (he ▸ hmem)
      simp only [SessionManager.rewindSession, hguard]
      simp only [SessionPersistence.rewindMessageHistory, hchan, hist, hlast]
      simp [SessionPersistence.getMessageHistory, SessionPersistence.getMessageCount,
        SessionPersistence.setSessionId, jsTruthy, jsOr, hs, hchan, hnid, hlast]
      have hgl : r.messageHistory.getD [] = stack := by
        have h2 := hist
        simp only [jsOr] at h2
        exact h2
      have htne : stack.take (stack.length - count) ≠ [] := by
        intro h0
        rw [h0] at hlast
        simp at hlast
      have hsub : stack.length - count ≠ 0 := by
        intro h0
        apply htne
        rw [h0]
        rfl
      rw [hgl]
      omega

/-- In-memory manager state for channel `c1`: active handle `h3`, not
processing, persisted stack `[h1, h2, h3]`, no artifact deletions. -/
def managerFixture : ManagerState :=
  { activeSessions := fun c =>
      if c = "c1" then
        some { channelId := "c1", sdkSessionId := some "h3", isProcessing := false,
               lastActivity := 0 }
      else none
    sessionStore := storeOneChannel
    deletedSdkFiles := [] }

/-- C2 witness: on stack `[h1, h2, h3]`, rewinding by 1 removes one entry
and rewinds to `h2` with stack `[h1, h2]`; rewinding by 5 removes 3 (not 5),
yields a null handle and an empty stack, and deletes no SDK artifact. -/
theorem rewindSession_pops_witness :
    (SessionManager.rewindSession managerFixture 7 "c1" 1).2.success = true ∧
    (SessionManager.rewindSession managerFixture 7 "c1" 1).2.messagesRemoved = 1 ∧
    (SessionManager.rewindSession managerFixture 7 "c1" 1).2.rewoundTo = some "h2" ∧
    SessionPersistence.getMessageHistory
        (SessionManager.rewindSession managerFixture 7 "c1" 1).1.sessionStore "c1" =
      ["h1", "h2"] ∧
    (SessionManager.rewindSession managerFixture 7 "c1" 5).2.messagesRemoved = 3 ∧
    (SessionManager.rewindSession managerFixture 7 "c1" 5).2.rewoundTo = none ∧
    SessionPersistence.getMessageHistory
        (SessionManager.rewindSession managerFixture 7 "c1" 5).1.sessionStore "c1" = [] ∧
    (SessionManager.rewindSession managerFixture 7 "c1" 5).1.deletedSdkFiles = [] := by
  have h1 := rewindSession_pops managerFixture 7 "c1" 1
    { channelId := "c1", sdkSessionId := some "h3", isProcessing := false, lastActivity := 0 }
    "h3" ["h1", "h2", "h3"] (by decide) rfl (by decide) (by decide) (by decide)
  have h5 := rewindSession_pops managerFixture 7 "c1" 5
    { channelId := "c1", sdkSessionId := some "h3", isProcessing := false, lastActivity := 0 }
    "h3" ["h1", "h2", "h3"] (by decide) rfl (by decide) (by decide) (by decide)
  exact ⟨h1.1, h1.2.1.trans (by decide), h1.2.2.2.1.trans (by decide),
    h1.2.2.1.trans (by decide), h5.2.1.trans (by decide), h5.2.2.2.1.trans (by decide),
    h5.2.2.1.trans (by decide), h5.2.2.2.2.2.trans (by rfl)⟩

/-- Filtering with `p` ignores a dropped prefix whose members all fail `p`. -/
theorem filter_dropWhile_eq (p q : Char → Bool) (l : List Char)
    (h : ∀ c, q c = true → p c = false) :
    (l.dropWhile q).filter p = l.filter p := by
  induction l with
  | nil => rfl
  | cons a l ih =>
    by_cases ha : q a = true
    · rw [List.dropWhile_cons_of_pos ha, ih, List.filter_cons_of_neg]
      simp [h a ha]
    · rw [List.dropWhile_cons_of_neg ha]

/-- Trimming leading whitespace never changes the visible characters. -/
theorem filterVisible_trimStart (s : List Char) :
    filterVisible (trimStart s) = filterVisible s := by
  unfold filterVisible trimStart
  exact filter_dropWhile_eq _ _ s (fun c hc => by simp [hc])

/-- Trimming trailing whitespace never changes the visible characters. -/
theorem filterVisible_trimEnd (s : List Char) :
    filterVisible (trimEnd s) = filterVisible s := by
  unfold filterVisible trimEnd
  rw [List.filter_reverse,
    filter_dropWhile_eq _ _ s.reverse (fun c hc => by simp [hc]),
    ← List.filter_reverse, List.reverse_reverse]

/-- Visible characters of a concatenation. -/
theorem filterVisible_append (l1 l2 : List Char) :
    filterVisible (l1 ++ l2) = filterVisible l1 ++ filterVisible l2 :=
  List.filter_append l1 l2

/-- With a positive limit every branch of `findSplitPoint` returns a
positive index, so the splitting loop always makes progress. -/
theorem findSplitPoint_pos (text : List Char) (maxLength : Nat)
    (h : 1 ≤ maxLength) : 1 ≤ findSplitPoint text maxLength := by
  unfold findSplitPoint
  dsimp only
  split_ifs with h1 h2 h3 h4 <;> omega

/-- Loop invariant for `splitMessage`: with enough fuel, the loop preserves
the visible characters of the remaining input. -/
theorem splitMessageGo_visible (maxLength : Nat) (hmax : 1 ≤ maxLength) :
    ∀ fuel remaining, remaining.length < fuel →
      filterVisible (List.flatten (splitMessageGo maxLength fuel remaining)) =
        filterVisible remaining := by
  intro fuel
  induction fuel with
  | zero => intro remaining hr; omega
  | succ fuel ih =>
    intro remaining hr
    rw [splitMessageGo]
    by_cases h0 : remaining.length = 0
    · rw [if_pos h0]
      rw [List.length_eq_zero] at h0
      subst h0
      rfl
    · rw [if_neg h0]
      by_cases hle : remaining.length ≤ maxLength
      · rw [if_pos hle]
        simp
      · rw [if_neg hle]
        have hpos := findSplitPoint_pos remaining maxLength hmax
        have hlen2 : (trimStart (remaining.drop (findSplitPoint remaining maxLength))).length
            < fuel := by
          have hd : (trimStart (remaining.drop (findSplitPoint remaining maxLength))).length ≤
              (remaining.drop (findSplitPoint remaining maxLength)).length :=
            (List.dropWhile_sublist _).length_le
          rw [List.length_drop] at hd
          omega
        simp only [List.flatten_cons]
        rw [filterVisible_append, filterVisible_trimEnd, ih _ hlen2, filterVisible_trimStart,
          ← filterVisible_append, List.take_append_drop]

/-- C8: for content longer than a positive limit, concatenating the chunks
of `splitMessage` preserves every non-whitespace character in order — the
only differences from the original are whitespace trimmed at the chunk
boundaries, so nothing visible is lost or duplicated. -/
theorem splitMessage_roundtrip (content : List Char) (maxLength : Nat)
    (hmax : 1 ≤ maxLength) (hlen : maxLength < content.length) :
    filterVisible (List.flatten (splitMessage content maxLength)) =
      filterVisible content := by
  unfold splitMessage
  rw [if_neg (by omega)]
  exact splitMessageGo_visible maxLength hmax _ content (by omega)

/-- A 17-character sample exceeding the limit 5. -/
def longSample : List Char :=
  ['h', 'e', 'l', 'l', 'o', ' ', 'w', 'o', 'r', 'l', 'd', ' ', 'a', 'g', 'a', 'i', 'n']

/-- C8 witness: splitting the 17-character sample at limit 5 and
concatenating the chunks preserves exactly the visible characters. -/
theorem splitMessage_roundtrip_witness :
    1 ≤ 5 ∧ 5 < longSample.length ∧
    filterVisible (List.flatten (splitMessage longSample 5)) = filterVisible longSample :=
  ⟨by decide, by decide, splitMessage_roundtrip longSample 5 (by decide) (by decide)⟩
